import Mathlib

/-!
Verification of the Anywhere network-extension data plane.

Shallow embedding of the C sources under `Anywhere Network Extension/`
(`VLESS/CVLESS.c`, `Packet/CPacket.c`, `lwip/lwip_bridge.c`) and proofs of
the specification's claims about them.

Conventions: C byte buffers become `List Nat` with entries below 256; machine
integers become `Nat`/`Int` with explicit `% 2^w` where a C cast truncates;
fallible functions return `Option`.  Strings passed as `(const char *, size_t)`
pairs become the list of their byte values (they may contain embedded NUL
bytes, exactly as in C).
-/

namespace Anywhere

/-! ## Character classes and `strtol`, as used by `CVLESS.c`

`parse_ipv4_address` and `parse_ipv6_address` call the C library's `strtol`
with bases 10 and 16.  We embed `strtol`'s subject-sequence rules: leading
whitespace is skipped, one optional sign is accepted, base-16 admits an
optional `0x`/`0X` prefix (kept only when a digit of the base follows), and
the result is `(value, consumed)` where `consumed = 0` models "no conversion
performed" (`*endptr == nptr`).  The C value is clamped to `LONG_MAX` on
overflow; both callers reject any value above their 8- or 16-bit bound, and
within the callers' 15/39-character input caps a clamped value exceeds that
bound exactly when the unbounded value does, so the unbounded `Int` result
yields the same accept/reject outcome and the same accepted values. -/

/-- C `isspace` on a byte value. -/
def isSpaceB (c : Nat) : Bool :=
  (c == 32) || (decide (9 ≤ c) && decide (c ≤ 13))

/-- Decimal digit `0`-`9`. -/
def isDigitB (c : Nat) : Bool :=
  decide (48 ≤ c) && decide (c ≤ 57)

/-- Hexadecimal digit `0`-`9`, `a`-`f`, `A`-`F`. -/
def isHexDigitB (c : Nat) : Bool :=
  isDigitB c || (decide (97 ≤ c) && decide (c ≤ 102))
    || (decide (65 ≤ c) && decide (c ≤ 70))

/-- Numeric value of one hexadecimal digit byte. -/
def hexVal (c : Nat) : Nat :=
  if 48 ≤ c ∧ c ≤ 57 then c - 48 else if 97 ≤ c then c - 87 else c - 55

/-- Value of a big-endian string of decimal digit bytes. -/
def natOfDigits (ds : List Nat) : Nat :=
  ds.foldl (fun a c => 10 * a + (c - 48)) 0

/-- Value of a big-endian string of hexadecimal digit bytes. -/
def natOfHexDigits (ds : List Nat) : Nat :=
  ds.foldl (fun a c => 16 * a + hexVal c) 0

/-- C `strtol(s, &end, 10)` on the NUL-terminated suffix `s`: result value and
number of bytes consumed (`0` when no conversion is performed). -/
def strtol10 (s : List Nat) : Int × Nat :=
  let w := (s.takeWhile isSpaceB).length
  let s1 := s.drop w
  let sign : Int := if s1.head? = some 45 then -1 else 1
  let signLen := if s1.head? = some 45 ∨ s1.head? = some 43 then 1 else 0
  let s2 := s1.drop signLen
  let ds := s2.takeWhile isDigitB
  if ds = [] then (0, 0)
  else (sign * (natOfDigits ds : Int), w + signLen + ds.length)

/-- C `strtol(s, &end, 16)` on the NUL-terminated suffix `s`, including the
optional `0x`/`0X` prefix (recognized only when a hex digit follows; a bare
`0x` parses as the single digit `0`, which the plain digit scan reproduces
because `0` itself is a hex digit). -/
def strtol16 (s : List Nat) : Int × Nat :=
  let w := (s.takeWhile isSpaceB).length
  let s1 := s.drop w
  let sign : Int := if s1.head? = some 45 then -1 else 1
  let signLen := if s1.head? = some 45 ∨ s1.head? = some 43 then 1 else 0
  let s2 := s1.drop signLen
  let pre : Nat :=
    match s2 with
    | 48 :: x :: rest =>
      -- a missing next byte reads as the NUL 0, which is not a hex digit
      if (x = 120 ∨ x = 88) ∧ isHexDigitB (rest.headD 0) then 2 else 0
    | _ => 0
  let s3 := s2.drop pre
  let ds := s3.takeWhile isHexDigitB
  if ds = [] then (0, 0)
  else (sign * (natOfHexDigits ds : Int), w + signLen + pre + ds.length)

/-! ## `parse_ipv4_address` (CVLESS.c lines 60-93)

The C function copies the input into a NUL-terminated buffer and loops
`while (count < 4)`: each round runs `strtol` base 10, rejects values outside
`0..255` or an empty conversion, records the octet, breaks on `'\0'`, rejects
any separator other than `'.'`, and advances past the dot.  After the loop it
rejects `count != 4`.  The loop is embedded with the remaining iteration count
(`4 - count`) as structural fuel and the remaining NUL-terminated suffix as
the cursor. -/

/-- One state of the `parse_ipv4_address` loop: `fuel = 4 - count`, `s` is the
suffix of the NUL-terminated buffer at the cursor, `acc` the octets parsed. -/
def ipv4Loop : Nat → List Nat → List Nat → Option (List Nat)
  | 0, _, acc => some acc
  | fuel + 1, s, acc =>
    let r := strtol10 s
    if r.1 < 0 ∨ (255 : Int) < r.1 then none
    else if r.2 = 0 then none
    else
      let acc1 := acc ++ [r.1.toNat]
      match s.drop r.2 with
      | [] => none
      | c :: rest =>
        if c = 0 then (if fuel = 0 then some acc1 else none)
        else if c ≠ 46 then none
        else ipv4Loop fuel rest acc1

/-- Embedding of `parse_ipv4_address`: `some` of the four octets on success,
`none` on failure (C return 0). -/
def parse_ipv4_address (str : List Nat) : Option (List Nat) :=
  if str.length = 0 ∨ 15 < str.length then none
  else ipv4Loop 4 (str ++ [0]) []

/-! ## `parse_ipv6_address` (CVLESS.c lines 95-164)

The C function strips one pair of enclosing brackets, then scans a
NUL-terminated buffer with `while (*ptr && partCount < 8)`: a `"::"` records
the elision position (failing on a second one) and breaks if the NUL follows;
a single `':'` is skipped; anything else goes through `strtol` base 16 with
the value bounded by `0xFFFF`.  After the loop, a recorded elision is expanded
to `8 - partCount` zero groups at its position (the C shift/zero loops over
the zero-initialized `parts[8]` array amount exactly to
`take pos ++ replicate (8 - partCount) 0 ++ drop pos`); without an elision the
group count must be exactly 8.  Groups serialize big-endian, two bytes each.
Every loop iteration either fails or consumes at least one byte of the
buffer, so fuel `length + 1` never runs out. -/

/-- One state of the `parse_ipv6_address` scan loop; returns the parsed groups
and the elision position at loop exit, or `none` on failure. -/
def ipv6Loop : Nat → List Nat → Nat → List Nat → Option Nat →
    Option (List Nat × Option Nat)
  | 0, _, _, _, _ => none
  | fuel + 1, s, pc, parts, dc =>
    if 8 ≤ pc then some (parts, dc)
    else
      match s with
      | [] => some (parts, dc)
      | c :: rest =>
        if c = 0 then some (parts, dc)
        else if c = 58 then
          match rest with
          | 58 :: rest2 =>
            if dc.isSome then none
            else
              match rest2 with
              | [] => some (parts, some pc)
              | c2 :: _ =>
                if c2 = 0 then some (parts, some pc)
                else ipv6Loop fuel rest2 pc parts (some pc)
          | _ => ipv6Loop fuel rest pc parts dc
        else
          let r := strtol16 (c :: rest)
          if r.1 < 0 ∨ (65535 : Int) < r.1 then none
          else if r.2 = 0 then none
          else ipv6Loop fuel ((c :: rest).drop r.2) (pc + 1)
            (parts ++ [r.1.toNat]) dc

/-- Embedding of `parse_ipv6_address`: `some` of the sixteen address bytes on
success, `none` on failure. -/
def parse_ipv6_address (str : List Nat) : Option (List Nat) :=
  if str.length = 0 ∨ 45 < str.length then none
  else
    let core :=
      if 2 ≤ str.length ∧ str.head? = some 91 ∧ str.getLast? = some 93
      then (str.drop 1).dropLast else str
    if core.length = 0 ∨ 39 < core.length then none
    else
      match ipv6Loop (core.length + 1) (core ++ [0]) 0 [] none with
      | none => none
      | some (parts, dc) =>
        let toBytes : List Nat → List Nat :=
          fun ps => (ps.map (fun v => [v / 256, v % 256])).flatten
        match dc with
        | some d =>
          some (toBytes
            (parts.take d ++ List.replicate (8 - parts.length) 0 ++ parts.drop d))
        | none => if parts.length ≠ 8 then none else some (toBytes parts)

/-! Spec-side predicates about address syntax, written from the claims'
words ("four dot-separated decimal octets each in the range 0 to 255",
"group count", "valid 1-to-4-digit hexadecimal value"), used to compare the
parsers against the claimed acceptance conditions. -/

/-- Split a byte string at every occurrence of the separator byte. -/
def splitOnByte (sep : Nat) : List Nat → List (List Nat)
  | [] => [[]]
  | c :: rest =>
    if c = sep then [] :: splitOnByte sep rest
    else
      match splitOnByte sep rest with
      | [] => [[c]]
      | g :: gs => (c :: g) :: gs

/-- The claim's acceptance condition for `parse_ipv4_address`: exactly four
dot-separated groups, each a non-empty decimal digit string with value at
most 255. -/
def isDottedQuad (s : List Nat) : Bool :=
  (splitOnByte 46 s).length == 4 &&
    (splitOnByte 46 s).all
      (fun g => !g.isEmpty && g.all isDigitB && decide (natOfDigits g ≤ 255))

/-! ## `parse_vless_address` (CVLESS.c lines 166-189) -/

/-- VLESS address-type byte `VLESS_ADDR_IPV4`. -/
def VLESS_ADDR_IPV4 : Nat := 1
/-- VLESS address-type byte `VLESS_ADDR_DOMAIN`. -/
def VLESS_ADDR_DOMAIN : Nat := 2
/-- VLESS address-type byte `VLESS_ADDR_IPV6`. -/
def VLESS_ADDR_IPV6 : Nat := 3

/-- Embedding of `parse_vless_address`: tries IPv4, then IPv6, else treats the
input as a domain (failing only above 255 bytes).  Returns the address-type
byte and the address bytes written to `outBytes`/`outLen`. -/
def parse_vless_address (str : List Nat) : Option (Nat × List Nat) :=
  match parse_ipv4_address str with
  | some b => some (VLESS_ADDR_IPV4, b)
  | none =>
    match parse_ipv6_address str with
    | some b => some (VLESS_ADDR_IPV6, b)
    | none =>
      if 255 < str.length then none
      else some (VLESS_ADDR_DOMAIN, str)

/-! ## `build_vless_request_header` (CVLESS.c lines 12-58)

The output buffer is modelled as the list of bytes written, in order; the C
return value (`offset`) is the length of that list.  `uint8_t`/`uint16_t`
casts are the explicit `% 256` / `% 65536`; `memcpy(dst, src, n)` from a
caller-supplied buffer is `List.take n`. -/

/-- Embedding of `build_vless_request_header`: the bytes written to `buffer`.
The C function returns `offset`, which is the length of this list. -/
def build_vless_request_header (uuid : List Nat) (command port addressType : Nat)
    (address : List Nat) (addressLen : Nat) : List Nat :=
  [0] ++ uuid.take 16 ++
    [0, command % 256, port % 65536 / 256, port % 65536 % 256, addressType % 256] ++
    (if addressType % 256 = VLESS_ADDR_DOMAIN then
      [addressLen % 256] ++ address.take addressLen
     else if addressType % 256 = VLESS_ADDR_IPV4 then address.take 4
     else if addressType % 256 = VLESS_ADDR_IPV6 then address.take 16
     else [])

/-! A typed VLESS address, following the spec's `VlessAddress` data model
(`IPv4([4]byte) | IPv6([16]byte) | Domain(bytes, length ≤ 255)`), used to
state the round-trip claim about the header builder. -/

/-- Spec-side tagged address variant. -/
inductive VlessAddress
  | ipv4 (b : List Nat)
  | ipv6 (b : List Nat)
  | domain (b : List Nat)

/-- The wire address-type byte of a typed address. -/
def VlessAddress.typeByte : VlessAddress → Nat
  | .ipv4 _ => VLESS_ADDR_IPV4
  | .domain _ => VLESS_ADDR_DOMAIN
  | .ipv6 _ => VLESS_ADDR_IPV6

/-- The raw payload bytes of a typed address. -/
def VlessAddress.payload : VlessAddress → List Nat
  | .ipv4 b => b
  | .ipv6 b => b
  | .domain b => b

/-- Whether the address is a domain. -/
def VlessAddress.isDomain : VlessAddress → Bool
  | .domain _ => true
  | _ => false

/-- The spec's `VlessAddress` invariant: payload length matches the tag
(4, 16, or at most 255 for a domain) and payload entries are bytes. -/
def VlessAddress.valid : VlessAddress → Prop
  | .ipv4 b => b.length = 4 ∧ ∀ x ∈ b, x < 256
  | .ipv6 b => b.length = 16 ∧ ∀ x ∈ b, x < 256
  | .domain b => b.length ≤ 255 ∧ ∀ x ∈ b, x < 256

/-- The encoded address section of the header: domains carry a one-byte
length prefix, IPv4/IPv6 payloads are written bare. -/
def VlessAddress.encoded : VlessAddress → List Nat
  | .ipv4 b => b
  | .ipv6 b => b
  | .domain b => [b.length] ++ b

/-! Fixed-offset readers over the serialized header, written from the spec's
field-layout sentence ("version byte 0x00; 16-byte UUID; addons-length byte
0x00; command byte; port as two big-endian bytes; address-type byte; address
payload"), used to state that re-parsing recovers the inputs. -/

/-- Bytes 1-16 of the header: the UUID. -/
def readHeaderUuid (out : List Nat) : List Nat := (out.drop 1).take 16

/-- Byte 18 of the header: the command. -/
def readHeaderCommand (out : List Nat) : Nat := out.getD 18 0

/-- Bytes 19-20 of the header, big-endian: the port. -/
def readHeaderPort (out : List Nat) : Nat :=
  256 * out.getD 19 0 + out.getD 20 0

/-- Byte 21 selects the address type; the payload follows (after a one-byte
length for domains). -/
def readHeaderAddress (out : List Nat) : Option (Nat × List Nat) :=
  if out.getD 21 0 = VLESS_ADDR_IPV4 then
    some (VLESS_ADDR_IPV4, (out.drop 22).take 4)
  else if out.getD 21 0 = VLESS_ADDR_DOMAIN then
    some (VLESS_ADDR_DOMAIN, (out.drop 23).take (out.getD 22 0))
  else if out.getD 21 0 = VLESS_ADDR_IPV6 then
    some (VLESS_ADDR_IPV6, (out.drop 22).take 16)
  else none

/-- The serialized header layout named by the spec: version byte, UUID,
addons-length byte, command, big-endian port, address-type byte, then the
encoded address section. -/
def headerBytes (uuid : List Nat) (command port t : Nat) (enc : List Nat) :
    List Nat :=
  [0] ++ uuid ++ [0, command, port / 256, port % 256, t] ++ enc

/-! ## TLS utilities (`Packet/CPacket.c`) -/

/-- Embedding of `xor_nonce_with_seq`: bytes 4-11 of the 12-byte nonce are
XOR-ed with the big-endian bytes of the 64-bit sequence number (byte `i` with
`(seq >> (8*(11-i))) & 0xFF`); bytes 0-3 pass through. -/
def xor_nonce_with_seq (nonce : Fin 12 → Nat) (seqNum : Nat) : Fin 12 → Nat :=
  let s := seqNum % 2 ^ 64
  fun i => if 4 ≤ i.val then nonce i ^^^ (s >>> (8 * (11 - i.val))) % 256 else nonce i

/-- Embedding of `parse_tls_header`: `none` models the C return 0, which the
spec reads as "need more data" (the function has no other failure mode);
on success the content type is byte 0 and the record length is the big-endian
16-bit value at bytes 3-4. -/
def parse_tls_header (buffer : List Nat) : Option (Nat × Nat) :=
  if buffer.length < 5 then none
  else some (buffer.getD 0 0, 256 * buffer.getD 3 0 + buffer.getD 4 0)

/-- Embedding of `find_tls13_content_end`: `none` models the C return -1;
otherwise the result is `(index of the last non-zero byte, that byte)`.
The C fast path (length ≥ 8 and a non-zero final byte) and the backward scan
are both kept; the scan counts the trailing zero bytes. -/
def find_tls13_content_end (data : List Nat) : Option (Nat × Nat) :=
  if data.length = 0 then none
  else if 8 ≤ data.length ∧ data.getLastD 0 ≠ 0 then
    some (data.length - 1, data.getLastD 0)
  else if (data.reverse.takeWhile (fun b => b == 0)).length = data.length then
    none
  else
    some (data.length - 1 - (data.reverse.takeWhile (fun b => b == 0)).length,
      data.getD
        (data.length - 1 - (data.reverse.takeWhile (fun b => b == 0)).length) 0)

/-- Embedding of `tls13_unwrap_content`: the returned pair is
`(content length, content type)`; the content itself is `data.take` of the
returned length. -/
def tls13_unwrap_content (data : List Nat) : Option (Nat × Nat) :=
  if data.length = 0 then none
  else
    match find_tls13_content_end data with
    | none => none
    | some (i, ct) => some (i, ct)

/-! ## `lwip_bridge_input` (lwip_bridge.c lines 357-400)

The function's observable behavior up to the engine hand-off: the guards that
drop the packet, the update of the process-wide UDP destination scratch state
(`s_current_udp_dst_port` / `s_current_udp_dst_ip`), and whether the packet
is handed to `tun_netif.input` (the `pbuf_alloc`/`pbuf_take`/input tail).
A NULL `data` pointer is `none`; the `int len` argument always matches the
buffer, so it is the list length. -/

/-- The process-wide UDP destination scratch state. -/
structure UdpScratch where
  port : Nat
  addr : List Nat
  deriving DecidableEq, Repr

/-- Embedding of `lwip_bridge_input`: given the packet (`none` for a NULL
pointer) and the current scratch state, returns the new scratch state and
whether the packet was handed to the engine (`tun_netif.input`). -/
def lwip_bridge_input (pkt : Option (List Nat)) (st : UdpScratch) :
    UdpScratch × Bool :=
  match pkt with
  | none => (st, false)
  | some p =>
    if p.length = 0 then (st, false)
    else if (p.getD 0 0 >>> 4) % 16 = 4 ∧ 20 ≤ p.length then
      (if p.getD 9 0 = 17 ∧ (p.getD 0 0 % 16) * 4 + 8 ≤ p.length then
        { port := 256 * p.getD ((p.getD 0 0 % 16) * 4 + 2) 0
            + p.getD ((p.getD 0 0 % 16) * 4 + 3) 0,
          addr := (p.drop 16).take 4 }
       else st, true)
    else if (p.getD 0 0 >>> 4) % 16 = 6 ∧ 40 ≤ p.length then
      (if p.getD 6 0 = 17 ∧ 48 ≤ p.length then
        { port := 256 * p.getD 42 0 + p.getD 43 0,
          addr := (p.drop 24).take 16 }
       else st, true)
    else (st, false)

/-! ## `lwip_bridge_shutdown` / `lwip_bridge_tcp_close` (lwip_bridge.c)

Modelled from the spec: the lwIP engine internals (`tcp_active_pcbs`,
`tcp_abort`, and the error-callback dispatch) are part of this repository's
patched lwIP tree but are not among the provided sources; only the bridge
code is.  Per the spec's shutdown contract and the bridge's own comments,
`tcp_abort` removes the PCB from the active list and fires its error callback
once, and `lwip_bridge_shutdown` loops `while (tcp_active_pcbs != NULL)
tcp_abort(tcp_active_pcbs);`.  A PCB is modelled by the callback argument the
bridge installed on it: `some h` for a flow still bound to external handle
`h` (callbacks intact), `none` after `lwip_bridge_tcp_close` cleared
`tcp_arg`/`tcp_err` for passive teardown. -/

/-- A TCP PCB as the bridge sees it: the external handle installed as the
callback argument, or `none` once the bridge cleared the callbacks. -/
structure PCB where
  handle : Option Nat
  deriving DecidableEq, Repr

/-- Embedding of `tcp_err_cb`: the notifications it emits for one PCB —
one `onError` to the handle when the argument is non-NULL, none otherwise. -/
def tcp_err_cb (arg : Option Nat) : List Nat :=
  match arg with
  | some h => [h]
  | none => []

/-- Embedding of the `lwip_bridge_shutdown` abort loop: repeatedly abort the
head of the active-PCB list; each abort removes the PCB and fires its error
callback.  The result is the sequence of `onError` notifications delivered. -/
def lwip_bridge_shutdown : List PCB → List Nat
  | [] => []
  | p :: rest => tcp_err_cb p.handle ++ lwip_bridge_shutdown rest

/-- Embedding of `lwip_bridge_tcp_close`'s effect on a PCB: `tcp_arg`,
`tcp_recv`, `tcp_sent`, `tcp_err` are all cleared before closing, so the PCB
keeps no external handle. -/
def lwip_bridge_tcp_close (_p : PCB) : PCB := { handle := none }

/-! ## Theorems -/

/-- C7: `parse_tls_header` returns the "need more data" indicator (its only
non-success result, the C return 0) exactly when fewer than 5 bytes are
available, and otherwise succeeds with the content type read at offset 0 and
the record body length as the big-endian 16-bit value at offsets 3-4. -/
theorem parse_tls_header_spec (buffer : List Nat) :
    (buffer.length < 5 → parse_tls_header buffer = none) ∧
    (5 ≤ buffer.length →
      parse_tls_header buffer =
        some (buffer.getD 0 0, 256 * buffer.getD 3 0 + buffer.getD 4 0)) := by
  constructor
  · intro h
    simp [parse_tls_header, h]
  · intro h
    unfold parse_tls_header
    rw [if_neg (by omega)]

/-- Witness for C7: a 4-byte buffer yields "need more data", a 5-byte buffer
parses with content type 22 and length 256. -/
theorem parse_tls_header_spec_witness :
    parse_tls_header [22, 3, 3, 1, 0] = some (22, 256) ∧
    parse_tls_header [22, 3, 3, 1] = none := by
  refine ⟨?_, (parse_tls_header_spec [22, 3, 3, 1]).1 (by decide)⟩
  have h := (parse_tls_header_spec [22, 3, 3, 1, 0]).2 (by decide)
  simpa using h

/-- C8: `xor_nonce_with_seq` leaves bytes 0-3 unchanged, XOR-s each byte
4 ≤ i ≤ 11 with the big-endian byte `(seq >> 8*(11-i)) & 0xFF` of the 64-bit
sequence number, and applying it twice with the same sequence number restores
the original nonce. -/
theorem xor_nonce_with_seq_spec (nonce : Fin 12 → Nat) (seqNum : Nat) :
    (∀ i : Fin 12, i.val < 4 → xor_nonce_with_seq nonce seqNum i = nonce i) ∧
    (∀ i : Fin 12, 4 ≤ i.val →
      xor_nonce_with_seq nonce seqNum i
        = nonce i ^^^ ((seqNum % 2 ^ 64) >>> (8 * (11 - i.val))) % 256) ∧
    xor_nonce_with_seq (xor_nonce_with_seq nonce seqNum) seqNum = nonce := by
  refine ⟨?_, ?_, ?_⟩
  · intro i hi
    simp only [xor_nonce_with_seq]
    rw [if_neg (by omega)]
  · intro i hi
    simp only [xor_nonce_with_seq]
    rw [if_pos hi]
  · funext i
    by_cases h : 4 ≤ i.val
    · simp only [xor_nonce_with_seq, if_pos h]
      rw [Nat.xor_assoc, Nat.xor_self, Nat.xor_zero]
    · simp only [xor_nonce_with_seq, if_neg h]

/-- Witness for C8: the transform at a concrete nonce and sequence number is
an involution and leaves byte 0 alone. -/
theorem xor_nonce_with_seq_spec_witness :
    xor_nonce_with_seq (xor_nonce_with_seq (fun i => i.val + 1) 77) 77
      = (fun i : Fin 12 => i.val + 1) ∧
    xor_nonce_with_seq (fun i : Fin 12 => i.val + 1) 77 ⟨0, by omega⟩ = 1 := by
  refine ⟨(xor_nonce_with_seq_spec (fun i => i.val + 1) 77).2.2, ?_⟩
  have h := (xor_nonce_with_seq_spec (fun i => i.val + 1) 77).1 ⟨0, by omega⟩ (by decide)
  simpa using h

/-- C9: any input of at most 255 bytes rejected by both address parsers is
accepted verbatim as a domain, with type byte `VLESS_ADDR_DOMAIN` and output
length equal to the input length. -/
theorem parse_vless_address_domain_spec (str : List Nat)
    (hlen : str.length ≤ 255)
    (h4 : parse_ipv4_address str = none)
    (h6 : parse_ipv6_address str = none) :
    parse_vless_address str = some (VLESS_ADDR_DOMAIN, str) := by
  unfold parse_vless_address
  rw [h4, h6]
  simp [Nat.not_lt.mpr hlen]

/-- Witness for C9: the empty string succeeds as a zero-length domain. -/
theorem parse_vless_address_domain_spec_witness :
    parse_vless_address [] = some (VLESS_ADDR_DOMAIN, []) :=
  parse_vless_address_domain_spec [] (by decide) (by decide) (by decide)

/-- C10: for any address-type byte other than 1 (IPv4), 2 (Domain) and
3 (IPv6), `build_vless_request_header` writes exactly the 22 fixed bytes and
returns 22, independently of `address` and `addressLen`. -/
theorem build_vless_unknown_type_spec (uuid : List Nat)
    (command port addressType : Nat) (address : List Nat) (addressLen : Nat)
    (hu : uuid.length = 16)
    (ht : ¬(addressType % 256 = 1 ∨ addressType % 256 = 2 ∨ addressType % 256 = 3)) :
    build_vless_request_header uuid command port addressType address addressLen
      = [0] ++ uuid ++ [0, command % 256, port % 65536 / 256, port % 65536 % 256,
          addressType % 256] ∧
    (build_vless_request_header uuid command port addressType address
      addressLen).length = 22 := by
  push_neg at ht
  obtain ⟨h1, h2, h3⟩ := ht
  have htake : uuid.take 16 = uuid := by
    rw [← hu]; exact List.take_length uuid
  have hmain : build_vless_request_header uuid command port addressType address
      addressLen
      = [0] ++ uuid ++ [0, command % 256, port % 65536 / 256, port % 65536 % 256,
          addressType % 256] := by
    unfold build_vless_request_header
    rw [htake, if_neg (by simpa [VLESS_ADDR_DOMAIN] using h2),
      if_neg (by simpa [VLESS_ADDR_IPV4] using h1),
      if_neg (by simpa [VLESS_ADDR_IPV6] using h3)]
    simp
  exact ⟨hmain, by rw [hmain]; simp [hu]⟩

/-- Witness for C10: address type 0 with a 2-byte address still produces the
bare 22-byte header. -/
theorem build_vless_unknown_type_spec_witness :
    build_vless_request_header (List.replicate 16 7) 1 443 0 [9, 9] 2
      = [0] ++ List.replicate 16 7 ++ [0, 1, 1, 187, 0] ∧
    (build_vless_request_header (List.replicate 16 7) 1 443 0 [9, 9] 2).length
      = 22 := by
  have h := build_vless_unknown_type_spec (List.replicate 16 7) 1 443 0 [9, 9] 2
    (by decide) (by decide)
  exact ⟨h.1.trans (by decide), h.2⟩

/-- C6: `lwip_bridge_input` drops the packet (scratch state unchanged, engine
not called) on a NULL pointer, a non-positive length, or a header truncated
for the declared version — IPv4 shorter than 20, IPv6 shorter than 40, or any
other version nibble; an IPv4 packet with protocol 17 and length at least
IHL+8 captures the destination address (bytes 16-19) and big-endian UDP
destination port (bytes IHL+2, IHL+3) into the scratch state and is handed to
the engine; an IPv6 packet with next-header 17 and length at least 48
captures the port from fixed offsets 42-43 and the address from bytes 24-39. -/
theorem lwip_bridge_input_spec (st : UdpScratch) :
    (lwip_bridge_input none st = (st, false)) ∧
    (∀ p : List Nat, p.length = 0 → lwip_bridge_input (some p) st = (st, false)) ∧
    (∀ p : List Nat, (p.getD 0 0 >>> 4) % 16 = 4 → p.length < 20 →
      lwip_bridge_input (some p) st = (st, false)) ∧
    (∀ p : List Nat, (p.getD 0 0 >>> 4) % 16 = 6 → p.length < 40 →
      lwip_bridge_input (some p) st = (st, false)) ∧
    (∀ p : List Nat, (p.getD 0 0 >>> 4) % 16 ≠ 4 → (p.getD 0 0 >>> 4) % 16 ≠ 6 →
      lwip_bridge_input (some p) st = (st, false)) ∧
    (∀ p : List Nat, (p.getD 0 0 >>> 4) % 16 = 4 → 20 ≤ p.length →
      p.getD 9 0 = 17 → (p.getD 0 0 % 16) * 4 + 8 ≤ p.length →
      lwip_bridge_input (some p) st =
        ({ port := 256 * p.getD ((p.getD 0 0 % 16) * 4 + 2) 0
              + p.getD ((p.getD 0 0 % 16) * 4 + 3) 0,
           addr := (p.drop 16).take 4 }, true)) ∧
    (∀ p : List Nat, (p.getD 0 0 >>> 4) % 16 = 6 → 40 ≤ p.length →
      p.getD 6 0 = 17 → 48 ≤ p.length →
      lwip_bridge_input (some p) st =
        ({ port := 256 * p.getD 42 0 + p.getD 43 0,
           addr := (p.drop 24).take 16 }, true)) := by
  refine ⟨rfl, ?_, ?_, ?_, ?_, ?_, ?_⟩
  · intro p hp
    simp [lwip_bridge_input, hp]
  · intro p hv hlen
    by_cases hz : p.length = 0
    · simp [lwip_bridge_input, hz]
    · simp only [lwip_bridge_input]
      rw [if_neg hz, if_neg (by omega), if_neg (by omega)]
  · intro p hv hlen
    by_cases hz : p.length = 0
    · simp [lwip_bridge_input, hz]
    · simp only [lwip_bridge_input]
      rw [if_neg hz, if_neg (by omega), if_neg (by omega)]
  · intro p hv4 hv6
    by_cases hz : p.length = 0
    · simp [lwip_bridge_input, hz]
    · simp only [lwip_bridge_input]
      rw [if_neg hz, if_neg (by omega), if_neg (by omega)]
  · intro p hv hlen hproto hudp
    simp only [lwip_bridge_input]
    rw [if_neg (by omega), if_pos ⟨hv, hlen⟩, if_pos ⟨hproto, hudp⟩]
  · intro p hv hlen hproto hudp
    simp only [lwip_bridge_input]
    rw [if_neg (by omega), if_neg (by omega), if_pos ⟨hv, hlen⟩,
      if_pos ⟨hproto, hudp⟩]

/-- Witness for C6: a concrete 28-byte IPv4/UDP packet to 10.0.0.2:80 is
captured and forwarded; a 10-byte IPv4 fragment is dropped. -/
theorem lwip_bridge_input_spec_witness :
    lwip_bridge_input
      (some [69,0,0,28, 0,0,0,0, 64,17,0,0, 10,0,0,1, 10,0,0,2, 0,53,0,80, 0,8,0,0])
      { port := 0, addr := [] }
      = ({ port := 80, addr := [10, 0, 0, 2] }, true) ∧
    lwip_bridge_input (some [69,0,0,28, 0,0,0,0, 64,17])
      { port := 0, addr := [] }
      = ({ port := 0, addr := [] }, false) := by
  constructor
  · have h := (lwip_bridge_input_spec { port := 0, addr := [] }).2.2.2.2.2.1
      [69,0,0,28, 0,0,0,0, 64,17,0,0, 10,0,0,1, 10,0,0,2, 0,53,0,80, 0,8,0,0]
      (by decide) (by decide) (by decide) (by decide)
    exact h.trans (by decide)
  · exact (lwip_bridge_input_spec { port := 0, addr := [] }).2.2.1
      [69,0,0,28, 0,0,0,0, 64,17] (by decide) (by decide)

/-- The shutdown abort loop delivers exactly the handles of the PCBs that
still carry one, in list order. -/
theorem shutdown_eq_filterMap (pcbs : List PCB) :
    lwip_bridge_shutdown pcbs = pcbs.filterMap PCB.handle := by
  induction pcbs with
  | nil => rfl
  | cons p rest ih =>
    cases hp : p.handle with
    | none => simp [lwip_bridge_shutdown, tcp_err_cb, hp, ih, List.filterMap_cons]
    | some h => simp [lwip_bridge_shutdown, tcp_err_cb, hp, ih, List.filterMap_cons]

/-- A list of PCBs that all went through `lwip_bridge_tcp_close` produces no
notifications at shutdown. -/
theorem shutdown_of_closed (pcbs : List PCB) :
    lwip_bridge_shutdown (pcbs.map lwip_bridge_tcp_close) = [] := by
  induction pcbs with
  | nil => rfl
  | cons p rest ih =>
    simpa [lwip_bridge_shutdown, lwip_bridge_tcp_close, tcp_err_cb] using ih

/-- Fixed-offset reads over the serialized header layout: each field of
`headerBytes` sits at its documented offset. -/
theorem headerBytes_reads (uuid : List Nat) (command port t : Nat)
    (enc : List Nat) (hu : uuid.length = 16) :
    readHeaderUuid (headerBytes uuid command port t enc) = uuid ∧
    (headerBytes uuid command port t enc).getD 18 0 = command ∧
    (headerBytes uuid command port t enc).getD 19 0 = port / 256 ∧
    (headerBytes uuid command port t enc).getD 20 0 = port % 256 ∧
    (headerBytes uuid command port t enc).getD 21 0 = t ∧
    (headerBytes uuid command port t enc).drop 22 = enc ∧
    (headerBytes uuid command port t enc).length = 22 + enc.length := by
  have hA : (([0] ++ uuid) : List Nat).length = 17 := by simp [hu]
  have hassoc : headerBytes uuid command port t enc
      = ([0] ++ uuid) ++ ([0, command, port / 256, port % 256, t] ++ enc) := by
    simp [headerBytes]
  have hdrop17 : (headerBytes uuid command port t enc).drop 17
      = [0, command, port / 256, port % 256, t] ++ enc := by
    rw [hassoc, ← hA, List.drop_left]
  have hgd : ∀ i : Nat, (headerBytes uuid command port t enc).getD (17 + i) 0
      = ([0, command, port / 256, port % 256, t] ++ enc).getD i 0 := by
    intro i
    rw [List.getD_eq_getElem?_getD, ← List.getElem?_drop, hdrop17,
      List.getD_eq_getElem?_getD]
  refine ⟨?_, ?_, ?_, ?_, ?_, ?_, ?_⟩
  · unfold readHeaderUuid
    have hdrop1 : (headerBytes uuid command port t enc).drop 1
        = uuid ++ ([0, command, port / 256, port % 256, t] ++ enc) := by
      simp [headerBytes]
    rw [hdrop1, ← hu, List.take_left]
  · have h := hgd 1
    simpa using h
  · have h := hgd 2
    simpa using h
  · have h := hgd 3
    simpa using h
  · have h := hgd 4
    simpa using h
  · have hB : ((([0] ++ uuid) ++ [0, command, port / 256, port % 256, t])
        : List Nat).length = 22 := by simp [hu]
    have hassoc2 : headerBytes uuid command port t enc
        = (([0] ++ uuid) ++ [0, command, port / 256, port % 256, t]) ++ enc := by
      simp [headerBytes]
    rw [hassoc2, ← hB, List.drop_left]
  · rw [hassoc]
    simp only [List.length_append, List.length_cons, List.length_nil, hu]
    omega

/-- C1 counterexample: at a concrete valid input with an IPv4 address, the
serialized length is 26 = 22 + 4, not 21 + 4 as the claim states. -/
theorem build_vless_length_counterexample :
    (build_vless_request_header (List.replicate 16 0) 1 443 VLESS_ADDR_IPV4
      [1, 2, 3, 4] 4).length = 26 ∧
    (build_vless_request_header (List.replicate 16 0) 1 443 VLESS_ADDR_IPV4
      [1, 2, 3, 4] 4).length ≠ 21 + 4 := by
  decide

/-- C1 (amended): for every valid input — 16-byte uuid, command byte, 16-bit
port, typed address — `build_vless_request_header` serializes the fields in
order (version 0x00, the 16 UUID bytes, addons-length 0x00, the command, the
big-endian port, the address-type byte, then the address payload with a
1-byte length prefix exactly when the address is a Domain); the returned
length is 22 + payload length, plus 1 when the address is a Domain; and
re-reading the fixed-offset fields recovers uuid, command, port and address
exactly. -/
theorem build_vless_request_header_spec (uuid : List Nat) (command port : Nat)
    (a : VlessAddress) (hu : uuid.length = 16) (hc : command < 256)
    (hp : port < 65536) (ha : a.valid) :
    build_vless_request_header uuid command port a.typeByte a.payload
      a.payload.length = headerBytes uuid command port a.typeByte a.encoded ∧
    (build_vless_request_header uuid command port a.typeByte a.payload
      a.payload.length).length
      = 22 + a.payload.length + (if a.isDomain then 1 else 0) ∧
    readHeaderUuid (build_vless_request_header uuid command port a.typeByte
      a.payload a.payload.length) = uuid ∧
    readHeaderCommand (build_vless_request_header uuid command port a.typeByte
      a.payload a.payload.length) = command ∧
    readHeaderPort (build_vless_request_header uuid command port a.typeByte
      a.payload a.payload.length) = port ∧
    readHeaderAddress (build_vless_request_header uuid command port a.typeByte
      a.payload a.payload.length) = some (a.typeByte, a.payload) := by
  have htake : uuid.take 16 = uuid := by
    rw [← hu]; exact List.take_length uuid
  have hcm : command % 256 = command := Nat.mod_eq_of_lt hc
  have hpm : port % 65536 = port := Nat.mod_eq_of_lt hp
  cases a with
  | ipv4 b =>
    obtain ⟨hb, _⟩ := ha
    have hbt : b.take 4 = b := by rw [← hb]; exact List.take_length b
    have hmain : build_vless_request_header uuid command port
        (VlessAddress.ipv4 b).typeByte (VlessAddress.ipv4 b).payload
        (VlessAddress.ipv4 b).payload.length
        = headerBytes uuid command port 1 b := by
      unfold build_vless_request_header headerBytes
      simp only [VlessAddress.typeByte, VlessAddress.payload,
        VLESS_ADDR_IPV4, VLESS_ADDR_DOMAIN, VLESS_ADDR_IPV6]
      simp [htake, hcm, hpm, hbt]
    obtain ⟨r1, r2, r3, r4, r5, r6, r7⟩ :=
      headerBytes_reads uuid command port 1 b hu
    refine ⟨hmain, ?_, ?_, ?_, ?_, ?_⟩
    · rw [hmain, r7]
      simp [VlessAddress.payload, VlessAddress.isDomain, hb]
    · rw [hmain]; exact r1
    · unfold readHeaderCommand; rw [hmain]; exact r2
    · unfold readHeaderPort
      rw [hmain, r3, r4]
      exact Nat.div_add_mod port 256
    · unfold readHeaderAddress
      rw [hmain, r5]
      simp only [VLESS_ADDR_IPV4, VLESS_ADDR_DOMAIN, VLESS_ADDR_IPV6,
        if_pos rfl]
      rw [r6, hbt]
      simp [VlessAddress.typeByte, VlessAddress.payload, VLESS_ADDR_IPV4]
  | ipv6 b =>
    obtain ⟨hb, _⟩ := ha
    have hbt : b.take 16 = b := by rw [← hb]; exact List.take_length b
    have hmain : build_vless_request_header uuid command port
        (VlessAddress.ipv6 b).typeByte (VlessAddress.ipv6 b).payload
        (VlessAddress.ipv6 b).payload.length
        = headerBytes uuid command port 3 b := by
      unfold build_vless_request_header headerBytes
      simp only [VlessAddress.typeByte, VlessAddress.payload,
        VLESS_ADDR_IPV4, VLESS_ADDR_DOMAIN, VLESS_ADDR_IPV6]
      simp [htake, hcm, hpm, hbt]
    obtain ⟨r1, r2, r3, r4, r5, r6, r7⟩ :=
      headerBytes_reads uuid command port 3 b hu
    refine ⟨hmain, ?_, ?_, ?_, ?_, ?_⟩
    · rw [hmain, r7]
      simp [VlessAddress.payload, VlessAddress.isDomain, hb]
    · rw [hmain]; exact r1
    · unfold readHeaderCommand; rw [hmain]; exact r2
    · unfold readHeaderPort
      rw [hmain, r3, r4]
      exact Nat.div_add_mod port 256
    · unfold readHeaderAddress
      rw [hmain, r5]
      simp only [VLESS_ADDR_IPV4, VLESS_ADDR_DOMAIN, VLESS_ADDR_IPV6]
      norm_num
      rw [r6, hbt]
      simp [VlessAddress.typeByte, VlessAddress.payload, VLESS_ADDR_IPV6]
  | domain b =>
    obtain ⟨hb, _⟩ := ha
    have hbm : b.length % 256 = b.length := Nat.mod_eq_of_lt (by omega)
    have hbt : b.take b.length = b := List.take_length b
    have hmain : build_vless_request_header uuid command port
        (VlessAddress.domain b).typeByte (VlessAddress.domain b).payload
        (VlessAddress.domain b).payload.length
        = headerBytes uuid command port 2 ([b.length] ++ b) := by
      unfold build_vless_request_header headerBytes
      simp only [VlessAddress.typeByte, VlessAddress.payload,
        VLESS_ADDR_IPV4, VLESS_ADDR_DOMAIN, VLESS_ADDR_IPV6]
      simp [htake, hcm, hpm, hbm, hbt]
    obtain ⟨r1, r2, r3, r4, r5, r6, r7⟩ :=
      headerBytes_reads uuid command port 2 ([b.length] ++ b) hu
    refine ⟨hmain, ?_, ?_, ?_, ?_, ?_⟩
    · rw [hmain, r7]
      simp [VlessAddress.payload, VlessAddress.isDomain]
      omega
    · rw [hmain]; exact r1
    · unfold readHeaderCommand; rw [hmain]; exact r2
    · unfold readHeaderPort
      rw [hmain, r3, r4]
      exact Nat.div_add_mod port 256
    · unfold readHeaderAddress
      rw [hmain, r5]
      have h22 : (headerBytes uuid command port 2 ([b.length] ++ b)).getD 22 0
          = b.length := by
        have h := (headerBytes uuid command port 2 ([b.length] ++ b)).getD_eq_getElem?_getD 22 0
        rw [h, show (22 : Nat) = 22 + 0 by rfl, ← List.getElem?_drop, r6]
        simp
      have h23 : (headerBytes uuid command port 2 ([b.length] ++ b)).drop 23
          = b := by
        have h : (headerBytes uuid command port 2 ([b.length] ++ b)).drop 23
            = ((headerBytes uuid command port 2 ([b.length] ++ b)).drop 22).drop 1 := by
          rw [List.drop_drop]
        rw [h, r6]
        simp
      rw [if_neg (by decide), if_pos (by rfl), h22, h23, hbt]
      rfl

/-- Witness for C1: a concrete domain address (bytes of "ex") on a concrete
uuid/command/port round-trips with total length 25 = 22 + 2 + 1. -/
theorem build_vless_request_header_spec_witness :
    (build_vless_request_header (List.replicate 16 5) 1 443 2 [101, 120]
      2).length = 25 ∧
    readHeaderPort (build_vless_request_header (List.replicate 16 5) 1 443 2
      [101, 120] 2) = 443 ∧
    readHeaderAddress (build_vless_request_header (List.replicate 16 5) 1 443 2
      [101, 120] 2) = some (2, [101, 120]) := by
  have h := build_vless_request_header_spec (List.replicate 16 5) 1 443
    (VlessAddress.domain [101, 120]) (by decide) (by decide) (by decide)
    (by constructor <;> decide)
  exact ⟨h.2.1.trans (by decide), h.2.2.2.2.1, h.2.2.2.2.2⟩

/-- Taking leading zero bytes of a list that is all zeros up to a first
non-zero byte yields exactly that zero prefix. -/
theorem takeWhile_zeros_append (l1 : List Nat) (a : Nat) (l2 : List Nat)
    (h1 : ∀ x ∈ l1, x = 0) (h2 : a ≠ 0) :
    (l1 ++ a :: l2).takeWhile (fun b => b == 0) = l1 := by
  induction l1 with
  | nil => simp [List.takeWhile_cons, h2]
  | cons x xs ih =>
    have hx : x = 0 := h1 x (by simp)
    simp only [List.cons_append, List.takeWhile_cons, hx]
    simpa using ih (fun y hy => h1 y (by simp [hy]))

/-- Reading the byte at the position right after `content` in
`content ++ ct :: pad` gives `ct`. -/
theorem getD_after_content (content : List Nat) (ct : Nat) (pad : List Nat) :
    (content ++ ct :: pad).getD content.length 0 = ct := by
  rw [List.getD_eq_getElem?_getD,
    List.getElem?_append_right (Nat.le_refl content.length)]
  simp

/-- `find_tls13_content_end` on a body decomposed as content, a non-zero
content-type byte, and all-zero padding returns the content length and that
byte (both through the fast path and through the backward scan). -/
theorem find_tls13_content_end_decomp (content : List Nat) (ct : Nat)
    (pad : List Nat) (hct : ct ≠ 0) (hpad : ∀ b ∈ pad, b = 0) :
    find_tls13_content_end (content ++ ct :: pad) = some (content.length, ct) := by
  have hlen : (content ++ ct :: pad).length = content.length + pad.length + 1 := by
    rw [List.length_append, List.length_cons]; omega
  have htz : ((content ++ ct :: pad).reverse.takeWhile (fun b => b == 0)).length
      = pad.length := by
    rw [List.reverse_append, List.reverse_cons,
      List.append_assoc, List.singleton_append,
      takeWhile_zeros_append pad.reverse ct content.reverse
        (fun x hx => hpad x (List.mem_reverse.mp hx)) hct]
    exact List.length_reverse pad
  rcases List.eq_nil_or_concat pad with rfl | ⟨pad1, z, hz⟩
  · -- no padding: the last byte is the content type
    have hlast : (content ++ [ct]).getLastD 0 = ct := List.getLastD_concat _ _ _
    unfold find_tls13_content_end
    rw [if_neg (by simp)]
    by_cases h8 : 8 ≤ (content ++ [ct]).length
    · rw [if_pos ⟨h8, by rw [hlast]; exact hct⟩]
      rw [hlast]
      simp
    · rw [if_neg (fun hh => h8 hh.1), htz,
        if_neg (by rw [hlen]; simp),
        show (content ++ [ct]).length - 1 - ([] : List Nat).length
          = content.length by rw [hlen]; simp,
        getD_after_content]
  · -- padding present: its last byte 0 forces the backward scan
    rw [List.concat_eq_append] at hz
    subst hz
    have hz0 : z = 0 := hpad z (by simp)
    have hlast : (content ++ ct :: (pad1 ++ [z])).getLastD 0 = z := by
      rw [show content ++ ct :: (pad1 ++ [z]) = (content ++ ct :: pad1) ++ [z] by
        simp]
      exact List.getLastD_concat _ _ _
    unfold find_tls13_content_end
    rw [if_neg (by simp), if_neg (fun hh => hh.2 (hlast.trans hz0)), htz,
      if_neg (by
        rw [hlen]
        simp only [List.length_append, List.length_cons, List.length_nil]
        omega),
      show (content ++ ct :: (pad1 ++ [z])).length - 1 - (pad1 ++ [z]).length
        = content.length by
        rw [hlen]
        simp only [List.length_append, List.length_cons, List.length_nil]
        omega,
      getD_after_content]

/-- `tls13_unwrap_content` fails on an all-zero (or empty) body. -/
theorem tls13_unwrap_content_allzero (data : List Nat)
    (h : ∀ b ∈ data, b = 0) : tls13_unwrap_content data = none := by
  by_cases hnil : data.length = 0
  · unfold tls13_unwrap_content
    rw [if_pos hnil]
  · have hlast : data.getLastD 0 = 0 := by
      rcases List.eq_nil_or_concat data with rfl | ⟨l1, z, hz⟩
      · rfl
      · subst hz
        rw [List.concat_eq_append, List.getLastD_concat]
        exact h z (by simp [List.concat_eq_append])
    have htz : data.reverse.takeWhile (fun b => b == 0) = data.reverse :=
      List.takeWhile_eq_self_iff.mpr
        (fun x hx => by simpa using h x (List.mem_reverse.mp hx))
    unfold tls13_unwrap_content find_tls13_content_end
    rw [if_neg hnil, if_neg hnil, if_neg (by rw [hlast]; tauto), htz,
      if_pos (List.length_reverse data)]

/-- C5: `tls13_unwrap_content` fails exactly on the empty or all-zero body;
on any body of the form content ++ [non-zero byte] ++ zero padding it reports
that byte as the content type and the content length as the byte's index, so
the content is the bytes preceding the last non-zero byte. -/
theorem tls13_unwrap_content_spec :
    (∀ data : List Nat, tls13_unwrap_content data = none ↔ ∀ b ∈ data, b = 0) ∧
    (∀ content ct pad, ct ≠ 0 → (∀ b ∈ pad, b = 0) →
      tls13_unwrap_content (content ++ ct :: pad) = some (content.length, ct)) := by
  have hsome : ∀ content ct pad, ct ≠ 0 → (∀ b ∈ pad, b = 0) →
      tls13_unwrap_content (content ++ ct :: pad) = some (content.length, ct) := by
    intro content ct pad hct hpad
    unfold tls13_unwrap_content
    rw [if_neg (by simp), find_tls13_content_end_decomp content ct pad hct hpad]
  refine ⟨fun data => ⟨?_, tls13_unwrap_content_allzero data⟩, hsome⟩
  intro hnone
  by_contra hnotall
  push_neg at hnotall
  obtain ⟨b0, hb0mem, hb0⟩ := hnotall
  have hqne : data.reverse.dropWhile (fun b => b == 0) ≠ [] := by
    intro h0
    rw [List.dropWhile_eq_nil_iff] at h0
    exact hb0 (by simpa using h0 b0 (List.mem_reverse.mpr hb0mem))
  obtain ⟨c, rest, hcr⟩ := List.exists_cons_of_ne_nil hqne
  have hc : c ≠ 0 := by
    have hhead := List.head?_dropWhile_not (fun b => b == 0) data.reverse
    rw [hcr] at hhead
    simpa using hhead
  have key : data
      = (data.reverse.takeWhile (fun b => b == 0) ++ (c :: rest)).reverse := by
    rw [← hcr, List.takeWhile_append_dropWhile, List.reverse_reverse]
  have key2 : (data.reverse.takeWhile (fun b => b == 0) ++ (c :: rest)).reverse
      = rest.reverse ++ c ::
        (data.reverse.takeWhile (fun b => b == 0)).reverse := by
    simp
  have hval := hsome rest.reverse c
    (data.reverse.takeWhile (fun b => b == 0)).reverse hc
    (fun x hx => by
      simpa using List.mem_takeWhile_imp (List.mem_reverse.mp hx))
  rw [← key2, ← key] at hval
  rw [hnone] at hval
  exact Option.noConfusion hval

/-- Witness for C5: the body `[0x41, 0x42, 0x16, 0x00, 0x00]` unwraps to the
two content bytes `[0x41, 0x42]` with content type `0x16`, and the all-zero
body `[0, 0, 0]` fails. -/
theorem tls13_unwrap_content_spec_witness :
    tls13_unwrap_content [65, 66, 22, 0, 0] = some (2, 22) ∧
    tls13_unwrap_content [0, 0, 0] = none := by
  constructor
  · have h := tls13_unwrap_content_spec.2 [65, 66] 22 [0, 0] (by decide) (by decide)
    exact h.trans (by decide)
  · exact (tls13_unwrap_content_spec.1 [0, 0, 0]).mpr (by decide)

/-- C2: shutting down with the given active-PCB list delivers one `onError`
notification per flow still bound to an external handle (exactly N for N
active flows, each handle exactly once when handles are distinct), none for
any handle not bound to an active flow, and zero notifications overall when
every flow already went through `lwip_bridge_tcp_close` (passive teardown,
callbacks cleared). -/
theorem lwip_bridge_shutdown_spec (pcbs : List PCB)
    (hnodup : (pcbs.filterMap PCB.handle).Nodup) :
    lwip_bridge_shutdown pcbs = pcbs.filterMap PCB.handle ∧
    (lwip_bridge_shutdown pcbs).length = (pcbs.filterMap PCB.handle).length ∧
    (∀ h ∈ pcbs.filterMap PCB.handle, (lwip_bridge_shutdown pcbs).count h = 1) ∧
    (∀ h, h ∉ pcbs.filterMap PCB.handle → (lwip_bridge_shutdown pcbs).count h = 0) ∧
    lwip_bridge_shutdown (pcbs.map lwip_bridge_tcp_close) = [] := by
  refine ⟨shutdown_eq_filterMap pcbs, by rw [shutdown_eq_filterMap], ?_, ?_, ?_⟩
  · intro h hmem
    rw [shutdown_eq_filterMap]
    exact List.count_eq_one_of_mem hnodup hmem
  · intro h hmem
    rw [shutdown_eq_filterMap]
    exact List.count_eq_zero_of_not_mem hmem
  · exact shutdown_of_closed pcbs

/-- Witness for C2: two active flows (handles 10, 20) and one flow in passive
teardown yield exactly the notifications [10, 20]. -/
theorem lwip_bridge_shutdown_spec_witness :
    lwip_bridge_shutdown [⟨some 10⟩, ⟨none⟩, ⟨some 20⟩] = [10, 20] := by
  have h := lwip_bridge_shutdown_spec [⟨some 10⟩, ⟨none⟩, ⟨some 20⟩] (by decide)
  exact h.1.trans (by decide)

/-- A digit string followed by a non-digit is consumed by the digit scan up
to exactly the digit string. -/
theorem takeWhile_digits_append (ds rest : List Nat)
    (hds : ∀ c ∈ ds, 48 ≤ c ∧ c ≤ 57)
    (hrest : ∀ c, rest.head? = some c → ¬(48 ≤ c ∧ c ≤ 57)) :
    (ds ++ rest).takeWhile isDigitB = ds := by
  induction ds with
  | nil =>
    cases rest with
    | nil => rfl
    | cons c r =>
      simp only [List.nil_append, List.takeWhile_cons]
      rw [if_neg (by simpa [isDigitB] using hrest c rfl)]
  | cons d ds' ih =>
    have hd := hds d (List.mem_cons_self d ds')
    simp only [List.cons_append, List.takeWhile_cons]
    rw [if_pos (by simpa [isDigitB] using hd),
      ih (fun c hc => hds c (List.mem_cons_of_mem d hc))]

/-- `strtol` base 10 on a non-empty digit string followed by a non-digit
yields the string's value and consumes exactly its length. -/
theorem strtol10_digits (ds rest : List Nat) (hne : ds ≠ [])
    (hds : ∀ c ∈ ds, 48 ≤ c ∧ c ≤ 57)
    (hrest : ∀ c, rest.head? = some c → ¬(48 ≤ c ∧ c ≤ 57)) :
    strtol10 (ds ++ rest) = ((natOfDigits ds : Int), ds.length) := by
  obtain ⟨d, ds', rfl⟩ := List.exists_cons_of_ne_nil hne
  have hd := hds d (List.mem_cons_self d ds')
  have h32 : d ≠ 32 := by omega
  have h13 : ¬(d ≤ 13) := by omega
  have hsp : isSpaceB d = false := by
    simp [isSpaceB, h32, h13]
  have hw : ((d :: ds') ++ rest).takeWhile isSpaceB = [] := by
    simp [List.takeWhile_cons, hsp]
  have htw2 : (d :: (ds' ++ rest)).takeWhile isDigitB = d :: ds' := by
    rw [← List.cons_append]
    exact takeWhile_digits_append (d :: ds') rest hds hrest
  have hA : d ≠ 45 := by omega
  have hB : d ≠ 43 := by omega
  simp only [strtol10]
  rw [hw]
  simp [htw2, hA, hB]

/-- One `parse_ipv4_address` loop round over a digit group followed by a dot:
the octet is recorded and the cursor moves past the dot. -/
theorem ipv4Loop_dot (fuel : Nat) (ds rest acc : List Nat) (hne : ds ≠ [])
    (hds : ∀ c ∈ ds, 48 ≤ c ∧ c ≤ 57) (hval : natOfDigits ds ≤ 255) :
    ipv4Loop (fuel + 1) (ds ++ 46 :: rest) acc
      = ipv4Loop fuel rest (acc ++ [natOfDigits ds]) := by
  have hs := strtol10_digits ds (46 :: rest) hne hds
    (by intro c hc; simp at hc; omega)
  simp only [ipv4Loop, hs]
  rw [if_neg (by omega),
    if_neg (by simpa [List.length_eq_zero] using hne),
    List.drop_left]
  simp

/-- The final `parse_ipv4_address` loop round over a digit group followed by
the NUL terminator succeeds with the four collected octets. -/
theorem ipv4Loop_last (ds acc : List Nat) (hne : ds ≠ [])
    (hds : ∀ c ∈ ds, 48 ≤ c ∧ c ≤ 57) (hval : natOfDigits ds ≤ 255) :
    ipv4Loop 1 (ds ++ [0]) acc = some (acc ++ [natOfDigits ds]) := by
  have hs := strtol10_digits ds [0] hne hds
    (by intro c hc; simp at hc; omega)
  show ipv4Loop (0 + 1) (ds ++ [0]) acc = some (acc ++ [natOfDigits ds])
  simp only [ipv4Loop, hs]
  rw [if_neg (by omega),
    if_neg (by simpa [List.length_eq_zero] using hne),
    List.drop_left]
  simp

/-- C3 counterexample: the claim says success happens exactly on four
dot-separated decimal octets, but `"1.2.3.4."` (which has a fifth, empty
group) is accepted: after four octets the residue is never validated. -/
theorem parse_ipv4_address_counterexample :
    parse_ipv4_address [49, 46, 50, 46, 51, 46, 52, 46] = some [1, 2, 3, 4] ∧
    isDottedQuad [49, 46, 50, 46, 51, 46, 52, 46] = false := by
  decide

/-- C3 (amended): every string of four dot-separated non-empty decimal digit
groups with values at most 255 and total length at most 15 parses to its four
octet values; the spec's examples behave as stated (`"192.168.1.1"` parses,
`"256.1.1.1"` and `"1.2.3"` fail); but residue after the fourth octet is not
validated, so success is not limited to exact dotted quads. -/
theorem parse_ipv4_address_spec :
    (∀ g1 g2 g3 g4 : List Nat,
      g1 ≠ [] → g2 ≠ [] → g3 ≠ [] → g4 ≠ [] →
      (∀ c ∈ g1, 48 ≤ c ∧ c ≤ 57) → (∀ c ∈ g2, 48 ≤ c ∧ c ≤ 57) →
      (∀ c ∈ g3, 48 ≤ c ∧ c ≤ 57) → (∀ c ∈ g4, 48 ≤ c ∧ c ≤ 57) →
      natOfDigits g1 ≤ 255 → natOfDigits g2 ≤ 255 →
      natOfDigits g3 ≤ 255 → natOfDigits g4 ≤ 255 →
      g1.length + g2.length + g3.length + g4.length + 3 ≤ 15 →
      parse_ipv4_address (g1 ++ [46] ++ g2 ++ [46] ++ g3 ++ [46] ++ g4)
        = some [natOfDigits g1, natOfDigits g2, natOfDigits g3,
            natOfDigits g4]) ∧
    parse_ipv4_address [49, 57, 50, 46, 49, 54, 56, 46, 49, 46, 49]
      = some [192, 168, 1, 1] ∧
    parse_ipv4_address [50, 53, 54, 46, 49, 46, 49, 46, 49] = none ∧
    parse_ipv4_address [49, 46, 50, 46, 51] = none := by
  refine ⟨?_, by decide, by decide, by decide⟩
  intro g1 g2 g3 g4 h1 h2 h3 h4 hd1 hd2 hd3 hd4 hv1 hv2 hv3 hv4 hlen
  have hp1 : 0 < g1.length := List.length_pos.mpr h1
  have hp2 : 0 < g2.length := List.length_pos.mpr h2
  have hp3 : 0 < g3.length := List.length_pos.mpr h3
  have hp4 : 0 < g4.length := List.length_pos.mpr h4
  have hlen1 : (g1 ++ [46] ++ g2 ++ [46] ++ g3 ++ [46] ++ g4).length
      = g1.length + g2.length + g3.length + g4.length + 3 := by
    simp only [List.length_append, List.length_cons, List.length_nil]
    omega
  unfold parse_ipv4_address
  rw [if_neg (by rw [hlen1]; omega)]
  rw [show (g1 ++ [46] ++ g2 ++ [46] ++ g3 ++ [46] ++ g4) ++ [0]
      = g1 ++ 46 :: (g2 ++ 46 :: (g3 ++ 46 :: (g4 ++ [0]))) from by simp]
  rw [show (4 : Nat) = 3 + 1 from rfl, ipv4Loop_dot 3 g1 _ [] h1 hd1 hv1]
  rw [show (3 : Nat) = 2 + 1 from rfl, ipv4Loop_dot 2 g2 _ _ h2 hd2 hv2]
  rw [show (2 : Nat) = 1 + 1 from rfl, ipv4Loop_dot 1 g3 _ _ h3 hd3 hv3]
  rw [ipv4Loop_last g4 _ h4 hd4 hv4]
  simp

/-- Witness for C3 (amended): the quantified part applied at the concrete
groups of `"1.2.3.4"` yields `[1, 2, 3, 4]`. -/
theorem parse_ipv4_address_spec_witness :
    parse_ipv4_address [49, 46, 50, 46, 51, 46, 52] = some [1, 2, 3, 4] := by
  have h := parse_ipv4_address_spec.1 [49] [50] [51] [52]
    (by decide) (by decide) (by decide) (by decide)
    (by decide) (by decide) (by decide) (by decide)
    (by decide) (by decide) (by decide) (by decide) (by decide)
  exact h.trans (by decide)

/-- C4 counterexample: `"1:2:3:4:5:6:7:8:9"` consists of nine colon-separated
1-digit hexadecimal groups — a group count different from 8, which the claim
says must fail — yet `parse_ipv6_address` accepts it, encoding the first
eight groups and ignoring the residue. -/
theorem parse_ipv6_address_counterexample :
    parse_ipv6_address
        [49, 58, 50, 58, 51, 58, 52, 58, 53, 58, 54, 58, 55, 58, 56, 58, 57]
      = some [0, 1, 0, 2, 0, 3, 0, 4, 0, 5, 0, 6, 0, 7, 0, 8] ∧
    (splitOnByte 58
        [49, 58, 50, 58, 51, 58, 52, 58, 53, 58, 54, 58, 55, 58, 56, 58, 57]).length
      = 9 ∧
    (splitOnByte 58
        [49, 58, 50, 58, 51, 58, 52, 58, 53, 58, 54, 58, 55, 58, 56, 58, 57]).all
      (fun g => !g.isEmpty && g.all isHexDigitB && decide (g.length ≤ 4))
      = true := by
  decide

/-- C4 (amended): `parse_ipv6_address` accepts optional enclosing brackets
and at most one `"::"` elision, expanded to `8 - explicitGroupCount` zero
groups (`"2001:db8::1"` and `"[::1]"` parse to the claimed byte strings); a
second `"::"` encountered while scanning fails (`"1::2::3"`); but scanning
stops once 8 groups have been read and any residue is ignored, so a group
count above 8 does not fail. -/
theorem parse_ipv6_address_spec :
    parse_ipv6_address [50, 48, 48, 49, 58, 100, 98, 56, 58, 58, 49]
      = some [32, 1, 13, 184, 0, 0, 0, 0, 0, 0, 0, 0, 0, 0, 0, 1] ∧
    parse_ipv6_address [91, 58, 58, 49, 93]
      = some [0, 0, 0, 0, 0, 0, 0, 0, 0, 0, 0, 0, 0, 0, 0, 1] ∧
    parse_ipv6_address [49, 58, 58, 50, 58, 58, 51] = none ∧
    parse_ipv6_address
        [49, 58, 50, 58, 51, 58, 52, 58, 53, 58, 54, 58, 55, 58, 56, 58, 57]
      = some [0, 1, 0, 2, 0, 3, 0, 4, 0, 5, 0, 6, 0, 7, 0, 8] := by
  decide

end Anywhere
